import Mathlib

/-!
# Verification of the 1-Hr-Strategy pipeline

A shallow embedding of the trade-window generator (`generate_trades.py`)
and the outcome aggregator (`analyze_trades.py`) of the 1-Hr-Strategy
repository, together with theorems settling the specification claims.

Prices are modelled as rationals, timestamps as integers (seconds since
the epoch), calendar dates as integers (days since the epoch).
-/

/-- Seconds in a day, used to derive the calendar date from a timestamp. -/
def secondsPerDay : ℤ := 86400

/-- Seconds in an hour, used to derive the hour-of-day from a timestamp. -/
def secondsPerHour : ℤ := 3600

/-- Calendar day derived from a UTC timestamp
(`df["timestamp"].dt.tz_convert(None).dt.date`). -/
def dateOf (t : ℤ) : ℤ := t.fdiv secondsPerDay

/-- Hour of day (0-23) derived from a UTC timestamp (`df["timestamp"].dt.hour`). -/
def hourOf (t : ℤ) : ℕ := ((t.emod secondsPerDay) / secondsPerHour).toNat

/-- One normalized price row of the loaded series: the parsed timestamp, the
derived `date` and `hour` columns, and the OHLC columns. -/
structure PriceBar where
  time : ℤ
  date : ℤ
  hour : ℕ
  «open» : ℚ
  high : ℚ
  low : ℚ
  close : ℚ
  deriving Repr, DecidableEq, Inhabited

/-- Trade direction, the tagged union behind the `"buy"` / `"short"` strings. -/
inductive Direction where
  | buy
  | short
  deriving Repr, DecidableEq

/-- One raw CSV row before normalization: the parsed `time` value and the four
price columns required by the loader. -/
structure RawRow where
  time : ℤ
  «open» : ℚ
  high : ℚ
  low : ℚ
  close : ℚ
  deriving Repr, DecidableEq

/-- A raw CSV table: its header together with its rows. -/
structure RawCsv where
  columns : List String
  rows : List RawRow

/-- Failure modes of `load_price_data`: the backing file is absent, or a
required column is missing. -/
inductive LoadError where
  | SourceNotFoundError
  | MissingColumnError
  deriving Repr, DecidableEq

/-- The columns `load_price_data` requires: `{time, open, high, low, close}`. -/
def required_columns : List String := ["time", "open", "high", "low", "close"]

/-- Embedding of `load_price_data`: `none` models a non-existent source file;
otherwise the required columns are checked, the rows are sorted ascending by
parsed timestamp, and the `date` and `hour` columns are derived. -/
def load_price_data (src : Option RawCsv) : Except LoadError (List PriceBar) :=
  match src with
  | none => .error .SourceNotFoundError
  | some csv =>
    if required_columns.all (fun c => csv.columns.contains c) then
      .ok (((csv.rows.mergeSort (fun a b => a.time ≤ b.time)).map fun r =>
        { time := r.time
          date := dateOf r.time
          hour := hourOf r.time
          «open» := r.«open»
          high := r.high
          low := r.low
          close := r.close }))
    else
      .error .MissingColumnError

/-- Embedding of `determine_signal`: look at the first bar of the day whose
hour is 23; bearish candle means buy, bullish means short, otherwise no
signal. -/
def determine_signal (day_df : List PriceBar) : Option Direction :=
  match day_df.filter (fun b => b.hour == 23) with
  | [] => none
  | row :: _ =>
    if row.close < row.«open» then some .buy
    else if row.«open» < row.close then some .short
    else none

/-- One row of a generated trade window: the underlying price bar together
with the derived `hours_from_entry`, `price_delta_from_entry` and
`return_pct_from_entry` columns. -/
structure WindowBar where
  bar : PriceBar
  hours_from_entry : ℤ
  price_delta_from_entry : ℚ
  return_pct_from_entry : ℚ
  deriving Repr, DecidableEq

/-- Embedding of the `TradeWindow` dataclass. -/
structure TradeWindow where
  signal_day : ℤ
  trade_day : ℤ
  direction : Direction
  entry_price : ℚ
  data : List WindowBar
  deriving Repr, DecidableEq

/-- The per-row column assignments of `build_trade_window`: offset from the
entry hour, directional price delta, and running return, all relative to the
fixed entry price. -/
def window_row (direction : Direction) (entry_price : ℚ) (entry_hour : ℕ)
    (b : PriceBar) : WindowBar :=
  let delta : ℚ :=
    match direction with
    | .buy => b.close - entry_price
    | .short => entry_price - b.close
  { bar := b
    hours_from_entry := (b.hour : ℤ) - (entry_hour : ℤ)
    price_delta_from_entry := delta
    return_pct_from_entry := delta / entry_price * 100 }

/-- Embedding of `build_trade_window`: slice the trade day's bars between the
entry and exit hours (inclusive), returning `none` when either boundary hour
has no bar or the slice is empty, and otherwise annotating every sliced bar
with its offset, price delta and running return relative to the entry price. -/
def build_trade_window (trade_df : List PriceBar) (signal_day : ℤ)
    (direction : Direction) (entry_hour exit_hour : ℕ) : Option TradeWindow :=
  match trade_df.filter (fun b => b.hour == entry_hour),
        trade_df.filter (fun b => b.hour == exit_hour) with
  | [], _ => none
  | _ :: _, [] => none
  | entry0 :: _, _ :: _ =>
    match trade_df.filter (fun b => entry_hour ≤ b.hour ∧ b.hour ≤ exit_hour) with
    | [] => none
    | w0 :: ws =>
      let entry_price := entry0.«open»
      some
        { signal_day := signal_day
          trade_day := w0.date
          direction := direction
          entry_price := entry_price
          data := (w0 :: ws).map (window_row direction entry_price entry_hour) }

/-- The loop body of `generate_trade_windows` for one consecutive day pair:
evaluate the signal on the first day and, when present, attempt to build a
window from the second day. -/
def window_for_pair (signal_day_df trade_day_df : List PriceBar)
    (entry_hour exit_hour : ℕ) : Option TradeWindow :=
  match determine_signal signal_day_df with
  | none => none
  | some direction =>
      build_trade_window trade_day_df (signal_day_df.headI.date) direction
        entry_hour exit_hour

/-- Embedding of `generate_trade_windows`: walk the chronologically ordered
daily series, and for each consecutive pair collect the window built by
`window_for_pair` when there is one. -/
def generate_trade_windows (days : List (List PriceBar))
    (entry_hour exit_hour : ℕ) : List TradeWindow :=
  match days with
  | [] => []
  | _ :: [] => []
  | sday :: tday :: rest =>
    match window_for_pair sday tday entry_hour exit_hour with
    | none => generate_trade_windows (tday :: rest) entry_hour exit_hour
    | some w => w :: generate_trade_windows (tday :: rest) entry_hour exit_hour

/-- One row of a persisted trade-window CSV as read back by
`analyze_trades.py`: the price columns plus the constant `entry_price`
column stamped at window construction. -/
structure TradeRow where
  «open» : ℚ
  high : ℚ
  low : ℚ
  close : ℚ
  entry_price : ℚ
  deriving Repr, DecidableEq, Inhabited

/-- Embedding of the `TradeMetrics` dataclass (price-valued fields only;
the `trade_day` / `signal_day` labels are bookkeeping the claims never
touch). -/
structure TradeMetrics where
  direction : Direction
  entry_price : ℚ
  exit_price : ℚ
  final_return : ℚ
  final_return_pct : ℚ
  max_return : ℚ
  max_return_pct : ℚ
  max_drawdown : ℚ
  max_drawdown_pct : ℚ
  hours_captured : ℕ
  deriving Repr, DecidableEq

/-- Maximum of a column over a non-empty window, as `df[col].max()`:
the fold of `max` over the mapped column, seeded with the first value. -/
def colMax (f : TradeRow → ℚ) (r : TradeRow) (rs : List TradeRow) : ℚ :=
  (rs.map f).foldl max (f r)

/-- Minimum of a column over a non-empty window, as `df[col].min()`. -/
def colMin (f : TradeRow → ℚ) (r : TradeRow) (rs : List TradeRow) : ℚ :=
  (rs.map f).foldl min (f r)

/-- Embedding of `compute_buy_metrics`; `none` models the `ValueError`
`load_trade_csv` raises on an empty CSV, so metrics are only produced
for non-empty windows. -/
def compute_buy_metrics : List TradeRow → Option TradeMetrics
  | [] => none
  | r :: rs =>
    let entry_price := r.entry_price
    let exit_price := (rs.getLastD r).close
    let max_price := max (colMax TradeRow.close r rs) (colMax TradeRow.high r rs)
    let min_price := colMin TradeRow.low r rs
    let max_return := max 0 (max_price - entry_price)
    let max_drawdown := max 0 (entry_price - min_price)
    let final_return := exit_price - entry_price
    some
      { direction := .buy
        entry_price := entry_price
        exit_price := exit_price
        final_return := final_return
        final_return_pct := final_return / entry_price * 100
        max_return := max_return
        max_return_pct := max_return / entry_price * 100
        max_drawdown := max_drawdown
        max_drawdown_pct := max_drawdown / entry_price * 100
        hours_captured := (r :: rs).length }

/-- Embedding of `compute_short_metrics`; `none` models the `ValueError`
raised on an empty CSV. -/
def compute_short_metrics : List TradeRow → Option TradeMetrics
  | [] => none
  | r :: rs =>
    let entry_price := r.entry_price
    let exit_price := (rs.getLastD r).close
    let min_price := min (colMin TradeRow.close r rs) (colMin TradeRow.low r rs)
    let max_price := max (colMax TradeRow.close r rs) (colMax TradeRow.high r rs)
    let max_return := max 0 (entry_price - min_price)
    let max_drawdown := max 0 (max_price - entry_price)
    let final_return := entry_price - exit_price
    some
      { direction := .short
        entry_price := entry_price
        exit_price := exit_price
        final_return := final_return
        final_return_pct := final_return / entry_price * 100
        max_return := max_return
        max_return_pct := max_return / entry_price * 100
        max_drawdown := max_drawdown
        max_drawdown_pct := max_drawdown / entry_price * 100
        hours_captured := (r :: rs).length }

/-- Embedding of the per-direction summary dict built by
`summarize_metrics`. -/
structure DirectionSummary where
  direction : Direction
  trade_count : ℕ
  sum_final_return : ℚ
  sum_max_return : ℚ
  sum_max_drawdown : ℚ
  avg_final_return : ℚ
  avg_max_return : ℚ
  avg_max_drawdown : ℚ
  deriving Repr, DecidableEq

/-- Embedding of `summarize_metrics`: totals and means of the per-trade
metrics, with the `if count else 0.0` guard on each mean. -/
def summarize_metrics (rows : List TradeMetrics) (direction : Direction) :
    DirectionSummary :=
  let count := rows.length
  let sum_final := (rows.map TradeMetrics.final_return).sum
  let sum_max_return := (rows.map TradeMetrics.max_return).sum
  let sum_max_drawdown := (rows.map TradeMetrics.max_drawdown).sum
  { direction := direction
    trade_count := count
    sum_final_return := sum_final
    sum_max_return := sum_max_return
    sum_max_drawdown := sum_max_drawdown
    avg_final_return := if count ≠ 0 then sum_final / count else 0
    avg_max_return := if count ≠ 0 then sum_max_return / count else 0
    avg_max_drawdown := if count ≠ 0 then sum_max_drawdown / count else 0 }

/-! ### Sample data for concrete witnesses -/

/-- A bearish 23:00 candle (close 95 < open 100) on day 0. -/
def sampleSignalBar : PriceBar := ⟨82800, 0, 23, 100, 101, 94, 95⟩

/-- A second, bullish 23:00 candle on day 0, later in row order. -/
def sampleSignalBar2 : PriceBar := ⟨82801, 0, 23, 50, 60, 40, 55⟩

/-- The 11:00 bar of day 1 (the default entry hour). -/
def sampleEntryBar : PriceBar := ⟨126000, 1, 11, 101, 102, 100, 102⟩

/-- The 12:00 bar of day 1. -/
def sampleMidBar : PriceBar := ⟨129600, 1, 12, 102, 104, 98, 99⟩

/-- The 21:00 bar of day 1 (the default exit hour). -/
def sampleExitBar : PriceBar := ⟨162000, 1, 21, 99, 103, 97, 103⟩

/-- A signal day holding a single bearish 23:00 candle. -/
def sampleSignalDay : List PriceBar := [sampleSignalBar]

/-- A signal day holding two 23:00 candles of opposite bias. -/
def sampleDupDay : List PriceBar := [sampleSignalBar, sampleSignalBar2]

/-- A complete trade day: bars at hours 11, 12 and 21. -/
def sampleTradeDay : List PriceBar := [sampleEntryBar, sampleMidBar, sampleExitBar]

/-- A truncated trade day: the 21:00 exit bar is missing. -/
def sampleShortTradeDay : List PriceBar := [sampleEntryBar, sampleMidBar]

/-- A persisted trade-window row (the 11:00 bar with entry price 101). -/
def sampleRowA : TradeRow := ⟨101, 102, 100, 102, 101⟩

/-- A persisted trade-window row (the 12:00 bar with entry price 101). -/
def sampleRowB : TradeRow := ⟨102, 104, 98, 99, 101⟩

/-- A trade-day series as the pipeline produces it: rows sorted ascending by
timestamp, `date` and `hour` columns derived from the timestamp, and all rows
sharing one calendar date. -/
def IsTradeDaySeries (l : List PriceBar) : Prop :=
  l.Pairwise (fun a b => a.time ≤ b.time) ∧
  (∀ b ∈ l, b.date = dateOf b.time ∧ b.hour = hourOf b.time) ∧
  ∀ a ∈ l, ∀ b ∈ l, a.date = b.date

/-- The trade window built from `sampleTradeDay` with entry hour 11, exit
hour 21 and a buy signal from day 0. -/
def sampleWindow : TradeWindow :=
  { signal_day := 0
    trade_day := 1
    direction := .buy
    entry_price := 101
    data :=
      [⟨sampleEntryBar, 0, 1, 100 / 101⟩,
       ⟨sampleMidBar, 1, -2, -200 / 101⟩,
       ⟨sampleExitBar, 10, 2, 200 / 101⟩] }

/-! ### Claims -/

/-- C1: for every daily series the signal comes solely from the (first) bar
whose hour is 23: close strictly below open gives a buy (Long), close
strictly above open gives a short, and the signal is `none` when no hour-23
bar exists or its open equals its close. -/
theorem determine_signal_spec (day_df : List PriceBar) :
    ((∀ b ∈ day_df, b.hour ≠ 23) → determine_signal day_df = none) ∧
    (∀ b, (day_df.filter (fun c => c.hour == 23)).head? = some b →
      determine_signal day_df =
        if b.close < b.«open» then some Direction.buy
        else if b.«open» < b.close then some Direction.short
        else none) := by
  constructor
  · intro h
    have hf : day_df.filter (fun b => b.hour == 23) = [] :=
      List.filter_eq_nil_iff.mpr (fun b hb => by simpa using h b hb)
    unfold determine_signal
    rw [hf]
  · intro b hb
    unfold determine_signal
    cases hf : day_df.filter (fun c => c.hour == 23) with
    | nil => rw [hf] at hb; simp at hb
    | cons c rest =>
      rw [hf] at hb
      simp only [List.head?_cons, Option.some.injEq] at hb
      subst hb
      rfl

/-- Witness for C1: a day whose 23:00 candle has open 100, close 95 yields a
buy signal. -/
theorem determine_signal_spec_witness :
    determine_signal sampleSignalDay = some Direction.buy := by
  have h := (determine_signal_spec sampleSignalDay).2 sampleSignalBar rfl
  rw [h]
  norm_num [sampleSignalBar]

/-- C10: the signal depends only on the first hour-23 bar of the day in row
order; two days whose first hour-23 bars agree get the same signal, so later
duplicate hour-23 bars never affect the outcome. -/
theorem determine_signal_first_only (d1 d2 : List PriceBar)
    (h : (d1.filter (fun b => b.hour == 23)).head? =
         (d2.filter (fun b => b.hour == 23)).head?) :
    determine_signal d1 = determine_signal d2 := by
  unfold determine_signal
  cases hl1 : d1.filter (fun b => b.hour == 23) with
  | nil =>
    rw [hl1] at h
    cases hl2 : d2.filter (fun b => b.hour == 23) with
    | nil => rfl
    | cons c2 r2 => rw [hl2] at h; exact absurd h (by simp)
  | cons c1 r1 =>
    rw [hl1] at h
    cases hl2 : d2.filter (fun b => b.hour == 23) with
    | nil => rw [hl2] at h; exact absurd h (by simp)
    | cons c2 r2 =>
      rw [hl2] at h
      simp only [List.head?_cons, Option.some.injEq] at h
      rw [h]

/-- Witness for C10: appending a bullish duplicate 23:00 candle after the
bearish one leaves the signal equal to that of the single-candle day. -/
theorem determine_signal_first_only_witness :
    determine_signal sampleDupDay = determine_signal sampleSignalDay :=
  determine_signal_first_only sampleDupDay sampleSignalDay rfl

/-- C2: on a non-empty window the buy metrics are the clamped favorable and
adverse excursions of `max(closeMax, highMax)` and `lowMin` around the first
row's entry price with final return `lastClose - entryPrice`, the short
metrics are the mirror image, and in every case the percentage fields divide
by the entry price and `hours_captured` counts the bars. -/
theorem compute_metrics_spec (r : TradeRow) (rs : List TradeRow) :
    (∃ m, compute_buy_metrics (r :: rs) = some m ∧
      m.entry_price = r.entry_price ∧
      m.exit_price = ((r :: rs).getLast (List.cons_ne_nil r rs)).close ∧
      m.max_return =
        max 0 (max (colMax TradeRow.close r rs) (colMax TradeRow.high r rs)
          - r.entry_price) ∧
      m.max_drawdown = max 0 (r.entry_price - colMin TradeRow.low r rs) ∧
      m.final_return =
        ((r :: rs).getLast (List.cons_ne_nil r rs)).close - r.entry_price ∧
      m.final_return_pct = m.final_return / r.entry_price * 100 ∧
      m.max_return_pct = m.max_return / r.entry_price * 100 ∧
      m.max_drawdown_pct = m.max_drawdown / r.entry_price * 100 ∧
      m.hours_captured = (r :: rs).length) ∧
    (∃ m, compute_short_metrics (r :: rs) = some m ∧
      m.entry_price = r.entry_price ∧
      m.exit_price = ((r :: rs).getLast (List.cons_ne_nil r rs)).close ∧
      m.max_return =
        max 0 (r.entry_price
          - min (colMin TradeRow.close r rs) (colMin TradeRow.low r rs)) ∧
      m.max_drawdown =
        max 0 (max (colMax TradeRow.close r rs) (colMax TradeRow.high r rs)
          - r.entry_price) ∧
      m.final_return =
        r.entry_price - ((r :: rs).getLast (List.cons_ne_nil r rs)).close ∧
      m.final_return_pct = m.final_return / r.entry_price * 100 ∧
      m.max_return_pct = m.max_return / r.entry_price * 100 ∧
      m.max_drawdown_pct = m.max_drawdown / r.entry_price * 100 ∧
      m.hours_captured = (r :: rs).length) := by
  have hlast := List.getLast_eq_getLastD r rs (List.cons_ne_nil r rs)
  constructor
  · exact ⟨_, rfl, rfl, by rw [hlast], rfl, rfl, by rw [hlast], rfl, rfl, rfl, rfl⟩
  · exact ⟨_, rfl, rfl, by rw [hlast], rfl, rfl, by rw [hlast], rfl, rfl, rfl, rfl⟩

/-- C4: every metrics record computed from any window, in either direction,
has non-negative `max_return` and `max_drawdown`. -/
theorem metrics_nonneg (df : List TradeRow) (m : TradeMetrics)
    (h : compute_buy_metrics df = some m ∨ compute_short_metrics df = some m) :
    0 ≤ m.max_return ∧ 0 ≤ m.max_drawdown := by
  cases df with
  | nil =>
    rcases h with h | h <;>
      simp [compute_buy_metrics, compute_short_metrics] at h
  | cons r rs =>
    rcases h with h | h <;>
    · simp only [compute_buy_metrics, compute_short_metrics,
        Option.some.injEq] at h
      subst h
      exact ⟨le_max_left _ _, le_max_left _ _⟩

/-- Witness for C4 at a concrete one-row buy window. -/
theorem metrics_nonneg_witness :
    0 ≤ (⟨Direction.buy, 101, 102, 1, 100 / 101, 1, 100 / 101, 1, 100 / 101, 1⟩
        : TradeMetrics).max_return ∧
    0 ≤ (⟨Direction.buy, 101, 102, 1, 100 / 101, 1, 100 / 101, 1, 100 / 101, 1⟩
        : TradeMetrics).max_drawdown :=
  metrics_nonneg [sampleRowA] _
    (Or.inl (by norm_num [compute_buy_metrics, colMax, colMin, sampleRowA]))

/-- Structure of any successfully built trade window: the entry-hour filter
and the hour-range slice are non-empty, and the window is the annotated
slice around the first entry-hour bar's open. -/
theorem build_some_elim {trade_df : List PriceBar} {signal_day : ℤ}
    {direction : Direction} {entry_hour exit_hour : ℕ} {w : TradeWindow}
    (hw : build_trade_window trade_df signal_day direction entry_hour exit_hour
      = some w) :
    ∃ entry0 erest w0 ws,
      trade_df.filter (fun b => b.hour == entry_hour) = entry0 :: erest ∧
      trade_df.filter (fun b => entry_hour ≤ b.hour ∧ b.hour ≤ exit_hour)
        = w0 :: ws ∧
      w = { signal_day := signal_day
            trade_day := w0.date
            direction := direction
            entry_price := entry0.«open»
            data := (w0 :: ws).map (window_row direction entry0.«open» entry_hour) } := by
  unfold build_trade_window at hw
  cases he : trade_df.filter (fun b => b.hour == entry_hour) with
  | nil => rw [he] at hw; exact Option.noConfusion hw
  | cons entry0 erest =>
    rw [he] at hw
    cases hx : trade_df.filter (fun b => b.hour == exit_hour) with
    | nil => rw [hx] at hw; exact Option.noConfusion hw
    | cons x0 xrest =>
      rw [hx] at hw
      cases hs : trade_df.filter (fun b => entry_hour ≤ b.hour ∧ b.hour ≤ exit_hour) with
      | nil => rw [hs] at hw; exact Option.noConfusion hw
      | cons w0 ws =>
        rw [hs] at hw
        simp only [Option.some.injEq] at hw
        exact ⟨entry0, erest, w0, ws, rfl, rfl, hw.symm⟩

/-- C3: in every generated trade window the entry price is the open of the
first entry-hour bar, each bar's price delta follows the directional sign
convention (close minus entry for buy, entry minus close for short), and each
bar's running return is that delta over the entry price times 100. -/
theorem build_trade_window_deltas (trade_df : List PriceBar) (signal_day : ℤ)
    (direction : Direction) (entry_hour exit_hour : ℕ) (w : TradeWindow)
    (hw : build_trade_window trade_df signal_day direction entry_hour exit_hour
      = some w) :
    (∃ e, (trade_df.filter (fun b => b.hour == entry_hour)).head? = some e ∧
      w.entry_price = e.«open») ∧
    ∀ wb ∈ w.data,
      (direction = Direction.buy →
        wb.price_delta_from_entry = wb.bar.close - w.entry_price) ∧
      (direction = Direction.short →
        wb.price_delta_from_entry = w.entry_price - wb.bar.close) ∧
      wb.return_pct_from_entry
        = wb.price_delta_from_entry / w.entry_price * 100 := by
  obtain ⟨entry0, erest, w0, ws, he, hs, hww⟩ := build_some_elim hw
  subst hww
  refine ⟨⟨entry0, by rw [he]; rfl, rfl⟩, ?_⟩
  intro wb hwb
  obtain ⟨b, hb, rfl⟩ := List.mem_map.mp hwb
  cases direction with
  | buy => exact ⟨fun _ => rfl, fun hc => Direction.noConfusion hc, rfl⟩
  | short => exact ⟨fun hc => Direction.noConfusion hc, fun _ => rfl, rfl⟩

/-- Witness for C3: the three-bar sample trade day, entry hour 11, exit
hour 21, buy direction. -/
theorem build_trade_window_deltas_witness :
    (∃ e, (sampleTradeDay.filter (fun b => b.hour == 11)).head? = some e ∧
      sampleWindow.entry_price = e.«open») ∧
    ∀ wb ∈ sampleWindow.data,
      (Direction.buy = Direction.buy →
        wb.price_delta_from_entry = wb.bar.close - sampleWindow.entry_price) ∧
      (Direction.buy = Direction.short →
        wb.price_delta_from_entry = sampleWindow.entry_price - wb.bar.close) ∧
      wb.return_pct_from_entry
        = wb.price_delta_from_entry / sampleWindow.entry_price * 100 :=
  build_trade_window_deltas sampleTradeDay 0 Direction.buy 11 21 sampleWindow
    (by norm_num [build_trade_window, window_row, sampleTradeDay, sampleWindow,
      sampleEntryBar, sampleMidBar, sampleExitBar])

/-- Within one calendar day, the derived hour is monotone in the timestamp. -/
theorem hourOf_mono {s t : ℤ} (hd : dateOf s = dateOf t) (hst : s ≤ t) :
    hourOf s ≤ hourOf t := by
  unfold dateOf hourOf secondsPerDay secondsPerHour at *
  rw [Int.fdiv_eq_ediv s (by norm_num), Int.fdiv_eq_ediv t (by norm_num)] at hd
  rw [show s.emod 86400 = s % 86400 from rfl,
    show t.emod 86400 = t % 86400 from rfl]
  omega

/-- C7: over a trade-day series sorted ascending by timestamp, every bar of a
constructed window has its hour within the inclusive entry/exit bounds, its
offset equals hour minus entry hour (hence lies in `[0, exit - entry]`), and
the offsets are monotonically non-decreasing across the window. -/
theorem build_trade_window_hours (trade_df : List PriceBar) (signal_day : ℤ)
    (direction : Direction) (entry_hour exit_hour : ℕ) (w : TradeWindow)
    (hday : IsTradeDaySeries trade_df)
    (hw : build_trade_window trade_df signal_day direction entry_hour exit_hour
      = some w) :
    (∀ wb ∈ w.data,
      entry_hour ≤ wb.bar.hour ∧ wb.bar.hour ≤ exit_hour ∧
      wb.hours_from_entry = (wb.bar.hour : ℤ) - (entry_hour : ℤ) ∧
      0 ≤ wb.hours_from_entry ∧
      wb.hours_from_entry ≤ (exit_hour : ℤ) - (entry_hour : ℤ)) ∧
    w.data.Pairwise (fun a b => a.hours_from_entry ≤ b.hours_from_entry) := by
  obtain ⟨entry0, erest, w0, ws, he, hs, hww⟩ := build_some_elim hw
  subst hww
  obtain ⟨hsort, hderived, hsame⟩ := hday
  have hmem : ∀ a ∈ w0 :: ws, a ∈ trade_df := by
    intro a ha
    rw [← hs] at ha
    exact (List.mem_filter.mp ha).1
  have hcond : ∀ a ∈ w0 :: ws, entry_hour ≤ a.hour ∧ a.hour ≤ exit_hour := by
    intro a ha
    rw [← hs] at ha
    simpa using (List.mem_filter.mp ha).2
  constructor
  · intro wb hwb
    obtain ⟨b, hb, rfl⟩ := List.mem_map.mp hwb
    obtain ⟨h1, h2⟩ := hcond b hb
    refine ⟨h1, h2, rfl, ?_, ?_⟩
    · show (0 : ℤ) ≤ (b.hour : ℤ) - (entry_hour : ℤ)
      omega
    · show (b.hour : ℤ) - (entry_hour : ℤ) ≤ (exit_hour : ℤ) - (entry_hour : ℤ)
      omega
  · show ((w0 :: ws).map
      (window_row direction entry0.«open» entry_hour)).Pairwise _
    rw [List.pairwise_map]
    have hfil : (w0 :: ws).Pairwise (fun a b => a.time ≤ b.time) := by
      rw [← hs]
      exact List.Pairwise.sublist (List.filter_sublist _) hsort
    refine hfil.imp_of_mem ?_
    intro a b ha hb hab
    show (a.hour : ℤ) - (entry_hour : ℤ) ≤ (b.hour : ℤ) - (entry_hour : ℤ)
    have hda := hderived a (hmem a ha)
    have hdb := hderived b (hmem b hb)
    have hdd := hsame a (hmem a ha) b (hmem b hb)
    have hmono : hourOf a.time ≤ hourOf b.time :=
      hourOf_mono (by rw [← hda.1, ← hdb.1, hdd]) hab
    rw [hda.2, hdb.2]
    omega

/-- Witness for C7 on the concrete three-bar sample trade day. -/
theorem build_trade_window_hours_witness :
    (∀ wb ∈ sampleWindow.data,
      11 ≤ wb.bar.hour ∧ wb.bar.hour ≤ 21 ∧
      wb.hours_from_entry = (wb.bar.hour : ℤ) - ((11 : ℕ) : ℤ) ∧
      0 ≤ wb.hours_from_entry ∧
      wb.hours_from_entry ≤ ((21 : ℕ) : ℤ) - ((11 : ℕ) : ℤ)) ∧
    sampleWindow.data.Pairwise
      (fun a b => a.hours_from_entry ≤ b.hours_from_entry) :=
  build_trade_window_hours sampleTradeDay 0 Direction.buy 11 21 sampleWindow
    ⟨by decide, by decide, by decide⟩
    (by norm_num [build_trade_window, window_row, sampleTradeDay, sampleWindow,
      sampleEntryBar, sampleMidBar, sampleExitBar])

/-- C9: when the trade day has a bar at the entry hour and a bar at the exit
hour and the entry hour is at most the exit hour, the hour-range slice is
non-empty, so `build_trade_window` succeeds and the returned window has at
least one bar (the empty-slice early return is unreachable). -/
theorem build_trade_window_nonempty (trade_df : List PriceBar)
    (signal_day : ℤ) (direction : Direction) (entry_hour exit_hour : ℕ)
    (hentry : ∃ b ∈ trade_df, b.hour = entry_hour)
    (hexit : ∃ b ∈ trade_df, b.hour = exit_hour)
    (hle : entry_hour ≤ exit_hour) :
    ∃ w, build_trade_window trade_df signal_day direction entry_hour exit_hour
      = some w ∧ w.data ≠ [] := by
  obtain ⟨be, hbe, hbeh⟩ := hentry
  obtain ⟨bx, hbx, hbxh⟩ := hexit
  have hfe : trade_df.filter (fun b => b.hour == entry_hour) ≠ [] := by
    intro hnil
    have := List.filter_eq_nil_iff.mp hnil be hbe
    simp [hbeh] at this
  have hfx : trade_df.filter (fun b => b.hour == exit_hour) ≠ [] := by
    intro hnil
    have := List.filter_eq_nil_iff.mp hnil bx hbx
    simp [hbxh] at this
  have hfs : trade_df.filter
      (fun b => entry_hour ≤ b.hour ∧ b.hour ≤ exit_hour) ≠ [] := by
    intro hnil
    have := List.filter_eq_nil_iff.mp hnil be hbe
    simp [hbeh, hle] at this
  cases he : trade_df.filter (fun b => b.hour == entry_hour) with
  | nil => exact absurd he hfe
  | cons e0 er =>
    cases hx : trade_df.filter (fun b => b.hour == exit_hour) with
    | nil => exact absurd hx hfx
    | cons x0 xr =>
      cases hs : trade_df.filter
          (fun b => entry_hour ≤ b.hour ∧ b.hour ≤ exit_hour) with
      | nil => exact absurd hs hfs
      | cons w0 ws =>
        refine ⟨{ signal_day := signal_day
                  trade_day := w0.date
                  direction := direction
                  entry_price := e0.«open»
                  data := (w0 :: ws).map
                    (window_row direction e0.«open» entry_hour) }, ?_, by simp⟩
        unfold build_trade_window
        rw [he, hx, hs]

/-- Witness for C9 on the concrete sample trade day. -/
theorem build_trade_window_nonempty_witness :
    ∃ w, build_trade_window sampleTradeDay 0 Direction.buy 11 21 = some w ∧
      w.data ≠ [] :=
  build_trade_window_nonempty sampleTradeDay 0 Direction.buy 11 21
    (by decide) (by decide) (by decide)

/-- A missing entry-hour or exit-hour bar makes `build_trade_window` return
`none` (silent skip, no error). -/
theorem build_none_of_missing (trade_df : List PriceBar) (signal_day : ℤ)
    (direction : Direction) (entry_hour exit_hour : ℕ)
    (h : (∀ b ∈ trade_df, b.hour ≠ entry_hour) ∨
         (∀ b ∈ trade_df, b.hour ≠ exit_hour)) :
    build_trade_window trade_df signal_day direction entry_hour exit_hour
      = none := by
  unfold build_trade_window
  rcases h with h | h
  · have he : trade_df.filter (fun b => b.hour == entry_hour) = [] :=
      List.filter_eq_nil_iff.mpr (fun b hb => by simpa using h b hb)
    rw [he]
  · have hx : trade_df.filter (fun b => b.hour == exit_hour) = [] :=
      List.filter_eq_nil_iff.mpr (fun b hb => by simpa using h b hb)
    rw [hx]
    cases trade_df.filter (fun b => b.hour == entry_hour) <;> rfl

/-- `generate_trade_windows` is the filterMap of the pair step over the
consecutive day pairs. -/
theorem generate_eq_filterMap (days : List (List PriceBar))
    (entry_hour exit_hour : ℕ) :
    generate_trade_windows days entry_hour exit_hour =
      (days.zip days.tail).filterMap
        (fun p => window_for_pair p.1 p.2 entry_hour exit_hour) := by
  induction days with
  | nil => rfl
  | cons s rest ih =>
    cases rest with
    | nil => rfl
    | cons t rest2 =>
      unfold generate_trade_windows
      cases hwp : window_for_pair s t entry_hour exit_hour with
      | none =>
        have hstep : (fun (p : List PriceBar × List PriceBar) =>
            window_for_pair p.1 p.2 entry_hour exit_hour) (s, t) = none := hwp
        rw [List.tail_cons, List.zip_cons_cons,
          @List.filterMap_cons_none _ _
            (fun p => window_for_pair p.1 p.2 entry_hour exit_hour) (s, t)
            ((t :: rest2).zip rest2) hstep]
        exact ih
      | some w =>
        have hstep : (fun (p : List PriceBar × List PriceBar) =>
            window_for_pair p.1 p.2 entry_hour exit_hour) (s, t) = some w := hwp
        rw [List.tail_cons, List.zip_cons_cons,
          @List.filterMap_cons_some _ _
            (fun p => window_for_pair p.1 p.2 entry_hour exit_hour) (s, t)
            ((t :: rest2).zip rest2) w hstep]
        exact congrArg (List.cons w) ih

/-- Dropping an index at which the function returns `none` leaves a
`filterMap` unchanged. -/
theorem filterMap_eraseIdx_of_none {α β : Type} (f : α → Option β) :
    ∀ (l : List α) (i : ℕ), (∀ a, l[i]? = some a → f a = none) →
      l.filterMap f = (l.eraseIdx i).filterMap f := by
  intro l
  induction l with
  | nil => intro i h; simp [List.eraseIdx]
  | cons a l ih =>
    intro i h
    cases i with
    | zero =>
      have ha : f a = none := h a (by simp)
      simp [List.eraseIdx, List.filterMap_cons_none ha]
    | succ i =>
      have htail : ∀ b, l[i]? = some b → f b = none := by
        intro b hb
        exact h b (by simpa using hb)
      show (a :: l).filterMap f = (a :: l.eraseIdx i).filterMap f
      cases hfa : f a with
      | none =>
        rw [List.filterMap_cons_none hfa, List.filterMap_cons_none hfa]
        exact ih i htail
      | some b =>
        rw [List.filterMap_cons_some hfa, List.filterMap_cons_some hfa]
        rw [ih i htail]

/-- C5: for a consecutive day pair whose signal day yields a Long or Short
signal, if the trade day lacks a bar at the entry hour or at the exit hour
the pair contributes no trade window: the pair step returns `none` and the
generated list equals the generation with that pair dropped. -/
theorem generate_skips_missing_boundary (days : List (List PriceBar))
    (entry_hour exit_hour : ℕ) (i : ℕ) (hi : i + 1 < days.length)
    (dir : Direction)
    (hsig : determine_signal (days.get ⟨i, by omega⟩) = some dir)
    (hmiss : (∀ b ∈ days.get ⟨i + 1, hi⟩, b.hour ≠ entry_hour) ∨
             (∀ b ∈ days.get ⟨i + 1, hi⟩, b.hour ≠ exit_hour)) :
    window_for_pair (days.get ⟨i, by omega⟩) (days.get ⟨i + 1, hi⟩)
      entry_hour exit_hour = none ∧
    generate_trade_windows days entry_hour exit_hour =
      ((days.zip days.tail).eraseIdx i).filterMap
        (fun p => window_for_pair p.1 p.2 entry_hour exit_hour) := by
  have hpair : window_for_pair (days.get ⟨i, by omega⟩)
      (days.get ⟨i + 1, hi⟩) entry_hour exit_hour = none := by
    unfold window_for_pair
    rw [hsig]
    exact build_none_of_missing _ _ _ _ _ hmiss
  refine ⟨hpair, ?_⟩
  rw [generate_eq_filterMap]
  apply filterMap_eraseIdx_of_none
  intro p hp
  have hlen : i < (days.zip days.tail).length := by
    rw [List.length_zip, List.length_tail]
    omega
  have hi0 : i < days.length := by omega
  have hit : i < days.tail.length := by
    rw [List.length_tail]
    omega
  have hz : (days.zip days.tail).get ⟨i, hlen⟩ =
      (days.get ⟨i, hi0⟩, days.tail.get ⟨i, hit⟩) := by
    simp [List.get_eq_getElem, List.getElem_zip]
  have ht : days.tail.get ⟨i, hit⟩ = days.get ⟨i + 1, hi⟩ := by
    simp [List.get_eq_getElem, List.getElem_tail]
  rw [List.getElem?_eq_getElem hlen] at hp
  have hpz : p = (days.zip days.tail).get ⟨i, hlen⟩ := by
    rw [List.get_eq_getElem]
    exact (Option.some.inj hp).symm
  rw [hpz, hz, ht]
  exact hpair

/-- Witness for C5: a bearish signal day followed by a trade day with an
11:00 bar but no 21:00 bar produces no window and no error. -/
theorem generate_skips_missing_boundary_witness :
    window_for_pair sampleSignalDay sampleShortTradeDay 11 21 = none ∧
    generate_trade_windows [sampleSignalDay, sampleShortTradeDay] 11 21 =
      ((([sampleSignalDay, sampleShortTradeDay]).zip
          ([sampleSignalDay, sampleShortTradeDay] :
            List (List PriceBar)).tail).eraseIdx 0).filterMap
        (fun p => window_for_pair p.1 p.2 11 21) :=
  generate_skips_missing_boundary [sampleSignalDay, sampleShortTradeDay]
    11 21 0 (by decide) Direction.buy
    (by norm_num [determine_signal, sampleSignalDay, sampleSignalBar])
    (Or.inr (by decide))

/-- C6: the summary carries the trade count and the sums of final return,
max return and max drawdown; each average is the sum over the count when the
count is non-zero and 0 when the count is zero, with no division fault. -/
theorem summarize_metrics_spec (rows : List TradeMetrics)
    (direction : Direction) :
    (summarize_metrics rows direction).direction = direction ∧
    (summarize_metrics rows direction).trade_count = rows.length ∧
    (summarize_metrics rows direction).sum_final_return =
      (rows.map TradeMetrics.final_return).sum ∧
    (summarize_metrics rows direction).sum_max_return =
      (rows.map TradeMetrics.max_return).sum ∧
    (summarize_metrics rows direction).sum_max_drawdown =
      (rows.map TradeMetrics.max_drawdown).sum ∧
    (rows.length ≠ 0 →
      (summarize_metrics rows direction).avg_final_return =
        (rows.map TradeMetrics.final_return).sum / (rows.length : ℚ) ∧
      (summarize_metrics rows direction).avg_max_return =
        (rows.map TradeMetrics.max_return).sum / (rows.length : ℚ) ∧
      (summarize_metrics rows direction).avg_max_drawdown =
        (rows.map TradeMetrics.max_drawdown).sum / (rows.length : ℚ)) ∧
    (rows.length = 0 →
      (summarize_metrics rows direction).avg_final_return = 0 ∧
      (summarize_metrics rows direction).avg_max_return = 0 ∧
      (summarize_metrics rows direction).avg_max_drawdown = 0) := by
  refine ⟨rfl, rfl, rfl, rfl, rfl, ?_, ?_⟩
  · intro h
    refine ⟨?_, ?_, ?_⟩ <;> simp [summarize_metrics, h]
  · intro h
    refine ⟨?_, ?_, ?_⟩ <;> simp [summarize_metrics, h]

/-- Witness for C6 at the empty metrics set and at a one-element set. -/
theorem summarize_metrics_spec_witness :
    (summarize_metrics [] Direction.buy).avg_final_return = 0 ∧
    (summarize_metrics
        [(⟨Direction.buy, 101, 102, 1, 100 / 101, 1, 100 / 101, 1, 100 / 101, 1⟩
          : TradeMetrics)] Direction.buy).avg_final_return =
      (([(⟨Direction.buy, 101, 102, 1, 100 / 101, 1, 100 / 101, 1, 100 / 101, 1⟩
          : TradeMetrics)]).map TradeMetrics.final_return).sum /
        (([(⟨Direction.buy, 101, 102, 1, 100 / 101, 1, 100 / 101, 1, 100 / 101, 1⟩
          : TradeMetrics)] : List TradeMetrics).length : ℚ) :=
  ⟨((summarize_metrics_spec [] Direction.buy).2.2.2.2.2.2 rfl).1,
   ((summarize_metrics_spec _ Direction.buy).2.2.2.2.2.1 (by decide)).1⟩

/-- C8: the loader reports `SourceNotFoundError` when the source is absent
and `MissingColumnError` when a required column is missing; otherwise it
returns exactly the input rows (as a permutation) sorted ascending by parsed
timestamp, with `date` and `hour` derived from each timestamp. -/
theorem load_price_data_spec (src : Option RawCsv) :
    (src = none →
      load_price_data src = Except.error LoadError.SourceNotFoundError) ∧
    ∀ csv, src = some csv →
      ((∃ c ∈ required_columns, c ∉ csv.columns) →
        load_price_data src = Except.error LoadError.MissingColumnError) ∧
      ((∀ c ∈ required_columns, c ∈ csv.columns) →
        ∃ bars, load_price_data src = Except.ok bars ∧
          bars.Pairwise (fun a b => a.time ≤ b.time) ∧
          (∀ b ∈ bars, b.date = dateOf b.time ∧ b.hour = hourOf b.time) ∧
          (bars.map fun b =>
            ({ time := b.time, «open» := b.«open», high := b.high,
               low := b.low, close := b.close } : RawRow)).Perm csv.rows) := by
  constructor
  · rintro rfl
    rfl
  · rintro csv rfl
    constructor
    · rintro ⟨c, hc, hnc⟩
      have hcond :
          ¬(required_columns.all (fun c => csv.columns.contains c) = true) := by
        rw [List.all_eq_true]
        intro hall
        exact hnc (by simpa using hall c hc)
      simp only [load_price_data]
      rw [if_neg hcond]
    · intro hall
      have hcond :
          required_columns.all (fun c => csv.columns.contains c) = true :=
        List.all_eq_true.mpr (fun c hc => by simpa using hall c hc)
      simp only [load_price_data]
      rw [if_pos hcond]
      refine ⟨_, rfl, ?_, ?_, ?_⟩
      · rw [List.pairwise_map]
        have hsorted := @List.sorted_mergeSort RawRow
          (fun a b => decide (a.time ≤ b.time))
          (fun a b c hab hbc => by
            rw [decide_eq_true_iff] at hab hbc ⊢
            omega)
          (fun a b => by
            rw [Bool.or_eq_true, decide_eq_true_iff, decide_eq_true_iff]
            exact Int.le_total a.time b.time)
          csv.rows
        exact hsorted.imp (fun h => by simpa using h)
      · intro b hb
        obtain ⟨r, hr, rfl⟩ := List.mem_map.mp hb
        exact ⟨rfl, rfl⟩
      · rw [List.map_map]
        have hid : ∀ m : List RawRow,
            (m.map ((fun b : PriceBar =>
              ({ time := b.time, «open» := b.«open», high := b.high,
                 low := b.low, close := b.close } : RawRow)) ∘
              (fun r : RawRow =>
                ({ time := r.time, date := dateOf r.time, hour := hourOf r.time,
                   «open» := r.«open», high := r.high, low := r.low,
                   close := r.close } : PriceBar)))) = m := fun m =>
          List.map_id' m
        rw [hid]
        exact List.mergeSort_perm csv.rows _

/-- Witness for C8: the missing-source case, a header missing `close`, and a
complete two-row table loaded out of order. -/
theorem load_price_data_spec_witness :
    load_price_data none = Except.error LoadError.SourceNotFoundError ∧
    load_price_data (some ⟨["time", "open", "high", "low"], []⟩) =
      Except.error LoadError.MissingColumnError ∧
    ∃ bars, load_price_data (some ⟨["time", "open", "high", "low", "close"],
        [⟨3600, 1, 2, 0, 1⟩, ⟨0, 5, 6, 4, 5⟩]⟩) = Except.ok bars ∧
      bars.Pairwise (fun a b => a.time ≤ b.time) ∧
      (∀ b ∈ bars, b.date = dateOf b.time ∧ b.hour = hourOf b.time) ∧
      (bars.map fun b =>
        ({ time := b.time, «open» := b.«open», high := b.high,
           low := b.low, close := b.close } : RawRow)).Perm
        [⟨3600, 1, 2, 0, 1⟩, ⟨0, 5, 6, 4, 5⟩] :=
  ⟨(load_price_data_spec none).1 rfl,
   ((load_price_data_spec _).2 _ rfl).1 ⟨"close", by decide, by decide⟩,
   ((load_price_data_spec _).2 _ rfl).2 (by decide)⟩
